import Mathlib

/-!
Verification of the indexing / lazy-resolution core of `imageio/plugins/dicom.py`
(`DicomFormat.Reader`): mode-dispatched length computation, indexed data and
metadata retrieval, lazy series discovery, and the JPEG-compressed-payload
recovery path of `_open`.

The embedding models numpy pixel buffers as nested lists tagged with their
dimensionality (the code only inspects `ndim`, `shape[0]` and indexes along the
first axis), the external `_dicom` module objects (`SimpleDicomReader`,
`DicomSeries`, `process_directory`) as explicit data / environment parameters,
and the mutable reader attributes (`_info`, `_data`, `_series`,
`_progressIndicator`) as an explicit state record threaded through every
operation.  Python exceptions become an explicit error type; every operation
returns its result (or error) together with the post-state, mirroring the fact
that a raising Python method still keeps its earlier attribute mutations.
-/

namespace Dicom

/-- Metadata mapping extracted from a DICOM file (the predefined tag subset);
modelled as an association list of tag names to values. -/
abbrev Info := List (String × String)

/-- A numpy pixel buffer as used by the plugin.  The code only ever inspects
`ndim`, `shape[0]`, and basic integer indexing along the first axis, so the
buffer is modelled as a nested list tagged with its dimensionality:
`vol` is a 3-D stack of slices, `img` a 2-D image, `row` a 1-D vector and
`scalar` a 0-D array (the latter two cannot occur in this plugin but keep
first-axis indexing total). -/
inductive PixelBuf where
  | scalar (x : Int)
  | row (xs : List Int)
  | img (xs : List (List Int))
  | vol (xs : List (List (List Int)))
deriving DecidableEq, Repr

/-- The `ndim` attribute of a numpy array. -/
def PixelBuf.ndim : PixelBuf → Nat
  | .scalar _ => 0
  | .row _ => 1
  | .img _ => 2
  | .vol _ => 3

/-- Errors raised by the plugin and by the operations it performs, keeping the
Python exception class distinctions: `indexError` for out-of-range indexing
(numpy and list), `runtimeError` and `valueError` for the plugin's own raises,
`compressedDicom` for the parser's compressed-payload failure (its payload is
`str(err)`), and `parseError` for any other parser failure. -/
inductive Err where
  | indexError (msg : String)
  | runtimeError (msg : String)
  | valueError (msg : String)
  | compressedDicom (msg : String)
  | parseError (msg : String)
deriving DecidableEq, Repr

/-- The spec groups the plugin's `RuntimeError` (unknown mode in `_get_length`)
and `ValueError` (unknown mode in `_get_data`/`_get_meta_data`, invalid
`progress` value) raises under one ConfigurationError kind; index errors and
parser errors are the other kinds. -/
def Err.isConfig : Err → Bool
  | .runtimeError _ => true
  | .valueError _ => true
  | _ => false

/-- Plain numpy basic indexing with a non-negative index along the first axis:
removes one dimension, raising `IndexError` when the index is out of range
(or when a 0-D array is indexed).  Models `arr[index]` for `index >= 0`. -/
def npIndex : PixelBuf → Nat → Except Err PixelBuf
  | .vol xs, i =>
    match xs.get? i with
    | some x => .ok (.img x)
    | none => .error (.indexError "index out of range")
  | .img xs, i =>
    match xs.get? i with
    | some x => .ok (.row x)
    | none => .error (.indexError "index out of range")
  | .row xs, i =>
    match xs.get? i with
    | some x => .ok (.scalar x)
    | none => .error (.indexError "index out of range")
  | .scalar _, _ => .error (.indexError "too many indices for array")

/-- Modelled from the spec: one parsed single-file dataset produced by the
external `_dicom.SimpleDicomReader` (the `_dicom` module is outside the file
under verification).  `info` is the extracted tag mapping (the `_info`
attribute, also exposed as the `info` property) and `array` the pixel buffer
returned by `get_numpy_array()`. -/
structure SimpleDicomReader where
  info : Info
  array : PixelBuf
deriving DecidableEq, Repr

/-- Modelled from the spec: one series produced by the external
`_dicom.process_directory`: an ordered collection of parsed datasets
(`items`, supporting `len`, iteration and indexing), together with the
full-series volume returned by its `get_numpy_array()` and its `info`
mapping. -/
structure DicomSeries where
  items : List SimpleDicomReader
  volume : PixelBuf
  info : Info
deriving DecidableEq, Repr

/-- A progress indicator object (`BaseProgressIndicator` hierarchy); the
Resolver only stores it and hands it to series discovery. -/
inductive ProgressIndicator where
  | stdoutIndicator (name : String)
  | baseIndicator (name : String)
deriving DecidableEq, Repr

/-- The value passed as the `progress` keyword of `_open`: an instance of
`BaseProgressIndicator`, the booleans `True` / `False`, `None`, or any other
Python value. -/
inductive Progress where
  | indicator (p : ProgressIndicator)
  | isTrue
  | isFalse
  | isNone
  | otherValue
deriving DecidableEq, Repr

/-- The mutable attributes of `DicomFormat.Reader` that the core logic uses:
`_info`, `_data`, `_series` and `_progressIndicator`.  `discoveries` is a
ghost counter of how many times the external `process_directory` routine has
actually been invoked (it appears nowhere in the code; it only instruments
the laziness claims). -/
structure ReaderState where
  info : Info
  data : Option PixelBuf
  series : Option (List DicomSeries)
  progressIndicator : ProgressIndicator
  discoveries : Nat
deriving DecidableEq, Repr

/-- The external world a live reader interacts with: `catalogAt n` is the
series catalog the external `_dicom.process_directory` would return on its
`n`-th invocation (letting the underlying directory change between
hypothetical invocations). -/
structure Env where
  catalogAt : Nat → List DicomSeries

/-- The memoized `series` property: on first access run the external discovery
routine and cache its result, afterwards return the cache.  Never raises. -/
def series (env : Env) (s : ReaderState) : List DicomSeries × ReaderState :=
  match s.series with
  | some c => (c, s)
  | none =>
    (env.catalogAt s.discoveries,
      { s with series := some (env.catalogAt s.discoveries),
               discoveries := s.discoveries + 1 })

/-- The promotion block shared verbatim by `_get_length`, `_get_data` and
`_get_meta_data`: `if self._data is None: dcm = self.series[0][0];
self._info = dcm._info; self._data = dcm.get_numpy_array()`.  Indexing an
empty catalog or an empty first series raises `IndexError` (with the series
cache already populated, as in Python). -/
def load_first (env : Env) (s : ReaderState) : Except Err PixelBuf × ReaderState :=
  match s.data with
  | some b => (.ok b, s)
  | none =>
    match series env s with
    | (cat, s1) =>
      match cat with
      | [] => (.error (.indexError "list index out of range"), s1)
      | ser :: _ =>
        match ser.items with
        | [] => (.error (.indexError "list index out of range"), s1)
        | dcm :: _ =>
          (.ok dcm.array, { s1 with info := dcm.info, data := some dcm.array })

/-- The slice count the three getters compute:
`self._data.shape[0] if (self._data.ndim == 3) else 1`; `ndim == 3` holds
exactly for `vol`, whose `shape[0]` is the length of the slice list. -/
def nslicesOf : PixelBuf → Nat
  | .vol xs => xs.length
  | _ => 1

/-- The flattened series list built by the `I` branch:
`L = []; for serie in self.series: L.extend([dcm_ for dcm_ in serie])`. -/
def flattenSeries (cat : List DicomSeries) : List SimpleDicomReader :=
  (cat.map (fun ser => ser.items)).flatten

/-- `DicomFormat.Reader._get_length` (dicom.py lines 165-194): promotion, then
mode dispatch on `self.request.mode[1]`. -/
def get_length (env : Env) (mode : Char) (s : ReaderState) :
    Except Err Nat × ReaderState :=
  match load_first env s with
  | (.error e, s1) => (.error e, s1)
  | (.ok b, s1) =>
    let nslices := nslicesOf b
    if mode = 'i' then
      (.ok nslices, s1)
    else if mode = 'I' then
      if nslices > 1 then
        (.ok nslices, s1)
      else
        match series env s1 with
        | (cat, s2) => (.ok ((cat.map (fun serie => serie.items.length)).sum), s2)
    else if mode = 'v' then
      if nslices > 1 then
        (.ok 1, s1)
      else
        match series env s1 with
        | (cat, s2) => (.ok cat.length, s2)
    else if mode = 'V' then
      match series env s1 with
      | (cat, s2) => (.ok cat.length, s2)
    else
      (.error (.runtimeError "DICOM plugin should know what to expect."), s1)

/-- `DicomFormat.Reader._get_data` (dicom.py lines 196-229): promotion, then
mode dispatch; returns the `(pixel buffer, info)` pair the Python method
returns.  Only non-negative indices are modelled. -/
def get_data (env : Env) (mode : Char) (index : Nat) (s : ReaderState) :
    Except Err (PixelBuf × Info) × ReaderState :=
  match load_first env s with
  | (.error e, s1) => (.error e, s1)
  | (.ok b, s1) =>
    let nslices := nslicesOf b
    if mode = 'i' then
      if nslices > 1 then
        match npIndex b index with
        | .ok sl => (.ok (sl, s1.info), s1)
        | .error e => (.error e, s1)
      else if index = 0 then
        (.ok (b, s1.info), s1)
      else
        (.error (.indexError "Dicom file contains only one slice."), s1)
    else if mode = 'I' then
      if index = 0 ∧ nslices > 1 then
        match npIndex b index with
        | .ok sl => (.ok (sl, s1.info), s1)
        | .error e => (.error e, s1)
      else
        match series env s1 with
        | (cat, s2) =>
          match (flattenSeries cat).get? index with
          | some dcm => (.ok (dcm.array, dcm.info), s2)
          | none => (.error (.indexError "list index out of range"), s2)
    else if mode = 'v' ∨ mode = 'V' then
      if index = 0 ∧ nslices > 1 then
        (.ok (b, s1.info), s1)
      else
        match series env s1 with
        | (cat, s2) =>
          match cat.get? index with
          | some serie => (.ok (serie.volume, serie.info), s2)
          | none => (.error (.indexError "list index out of range"), s2)
    else
      (.error (.valueError "DICOM plugin should know what to expect."), s1)

/-- `DicomFormat.Reader._get_meta_data` (dicom.py lines 231-261): promotion,
then the unindexed fast return, then mode dispatch. -/
def get_meta_data (env : Env) (mode : Char) (index : Option Nat)
    (s : ReaderState) : Except Err Info × ReaderState :=
  match load_first env s with
  | (.error e, s1) => (.error e, s1)
  | (.ok b, s1) =>
    let nslices := nslicesOf b
    match index with
    | none => (.ok s1.info, s1)
    | some index =>
      if mode = 'i' then
        (.ok s1.info, s1)
      else if mode = 'I' then
        if index = 0 ∧ nslices > 1 then
          (.ok s1.info, s1)
        else
          match series env s1 with
          | (cat, s2) =>
            match (flattenSeries cat).get? index with
            | some dcm => (.ok dcm.info, s2)
            | none => (.error (.indexError "list index out of range"), s2)
      else if mode = 'v' ∨ mode = 'V' then
        if index = 0 ∧ nslices > 1 then
          (.ok s1.info, s1)
        else
          match series env s1 with
          | (cat, s2) =>
            match cat.get? index with
            | some serie => (.ok serie.info, s2)
            | none => (.error (.indexError "list index out of range"), s2)
      else
        (.error (.valueError "DICOM plugin should know what to expect."), s1)

/-- Character-list prefix test (helper for the substring test below). -/
def startsWithL : List Char → List Char → Bool
  | _, [] => true
  | [], _ :: _ => false
  | c :: cs, p :: ps => (c = p) && startsWithL cs ps

/-- Character-list substring test: does `pat` occur contiguously in the
list? -/
def hasSub : List Char → List Char → Bool
  | [], pat => startsWithL [] pat
  | c :: cs, pat => startsWithL (c :: cs) pat || hasSub cs pat

/-- The Python substring test `s2 in s1` (used as `'JPEG' in str(err)`). -/
def containsSub (s1 s2 : String) : Bool :=
  hasSub s1.toList s2.toList

/-- The external calls `_open` makes for a single-file source, as an
environment record: `parseMain` is what `_dicom.SimpleDicomReader
(self.request.get_file())` does, `exe` the result of `get_dcmdjpeg_exe()`
(`None` or a path), `callOk` whether `subprocess.check_call([exe, fname1,
fname2])` succeeds, and `parseConverted` what `_dicom.SimpleDicomReader
(fname2)` does on the converted sibling file. -/
structure OpenEnv where
  isDir : Bool
  parseMain : Except Err SimpleDicomReader
  exe : Option String
  callOk : Bool
  parseConverted : Except Err SimpleDicomReader

/-- The `try ... except _dicom.CompressedDicom` block of
`DicomFormat.Reader._open` (dicom.py lines 116-133): on a compressed-payload
failure whose text names JPEG, locate the tool (else re-raise the original
error), invoke it (an invocation failure re-raises the original error,
`raise err`), and on success parse the converted file — whose own failures,
compressed or not, propagate with no further recovery. -/
def parse_with_recovery (oenv : OpenEnv) : Except Err SimpleDicomReader :=
  match oenv.parseMain with
  | .ok dcm => .ok dcm
  | .error err =>
    match err with
    | .compressedDicom msg =>
      if containsSub msg "JPEG" then
        match oenv.exe with
        | none => .error (.compressedDicom msg)
        | some _ =>
          if oenv.callOk then
            oenv.parseConverted
          else
            .error (.compressedDicom msg)
      else
        .error (.compressedDicom msg)
    | e => .error e

/-- The progress-configuration dispatch at the end of `_open` (dicom.py lines
142-150): a `BaseProgressIndicator` instance is taken as-is, `True` selects a
stdout indicator, `None` and `False` a no-op indicator, anything else raises
`ValueError`. -/
def set_progress (progress : Progress) : Except Err ProgressIndicator :=
  match progress with
  | .indicator p => .ok p
  | .isTrue => .ok (.stdoutIndicator "Reading DICOM")
  | .isFalse => .ok (.baseIndicator "Dummy")
  | .isNone => .ok (.baseIndicator "Dummy")
  | .otherValue => .error (.valueError "Invalid value for progress.")

/-- `DicomFormat.Reader._open` (dicom.py lines 107-150): a directory source
defers everything (`_info = {}`, `_data = None`); a file source is parsed now
(with one-shot JPEG recovery); `_series` starts unresolved; finally the
progress configuration is resolved. -/
def open_reader (oenv : OpenEnv) (progress : Progress) :
    Except Err ReaderState :=
  if oenv.isDir then
    match set_progress progress with
    | .error e => .error e
    | .ok pi =>
      .ok { info := [], data := none, series := none,
            progressIndicator := pi, discoveries := 0 }
  else
    match parse_with_recovery oenv with
    | .error e => .error e
    | .ok dcm =>
      match set_progress progress with
      | .error e => .error e
      | .ok pi =>
        .ok { info := dcm.info, data := some dcm.array, series := none,
              progressIndicator := pi, discoveries := 0 }

/-- One externally visible query on a live reader. -/
inductive ReaderOp where
  | lengthOp (mode : Char)
  | dataOp (mode : Char) (index : Nat)
  | metaOp (mode : Char) (index : Option Nat)
deriving DecidableEq, Repr

/-- State reached after one query (a raising query still keeps its earlier
attribute mutations, as in Python). -/
def runOp (env : Env) (s : ReaderState) : ReaderOp → ReaderState
  | .lengthOp mode => (get_length env mode s).2
  | .dataOp mode index => (get_data env mode index s).2
  | .metaOp mode index => (get_meta_data env mode index s).2

/-- State reached after a sequence of queries. -/
def runOps (env : Env) : List ReaderOp → ReaderState → ReaderState
  | [], s => s
  | op :: ops, s => runOps env ops (runOp env s op)

/-- Fixture: a dummy progress indicator. -/
def exInd : ProgressIndicator := .baseIndicator "Dummy"

/-- Fixture: a parsed single-slice dataset with a recognisable tag and pixel. -/
def exDcm (n : Nat) : SimpleDicomReader := ⟨[(toString n, "m")], .img [[(n : Int)]]⟩

/-- Fixture: a series with two single-slice items. -/
def exSeries0 : DicomSeries := ⟨[exDcm 0, exDcm 1], .vol [[[0]], [[1]]], [("s", "0")]⟩

/-- Fixture: a series with three single-slice items. -/
def exSeries1 : DicomSeries :=
  ⟨[exDcm 2, exDcm 3, exDcm 4], .vol [[[2]], [[3]], [[4]]], [("s", "1")]⟩

/-- Fixture: a directory whose catalog holds series of sizes 2 and 3. -/
def exEnv : Env := ⟨fun _ => [exSeries0, exSeries1]⟩

/-- Fixture: a directory whose catalog is empty. -/
def exEnvEmpty : Env := ⟨fun _ => []⟩

/-- Fixture: state right after opening a directory source. -/
def exDirState : ReaderState := ⟨[], none, none, exInd, 0⟩

/-- Fixture: a single-file state whose buffer is 3-D with exactly one slice. -/
def exVol1State : ReaderState := ⟨[("k", "v")], some (.vol [[[5]]]), none, exInd, 0⟩

/-- Fixture: another single-file state with a 3-D one-slice buffer. -/
def exVol1bState : ReaderState := ⟨[], some (.vol [[[9]]]), none, exInd, 0⟩

/-- Fixture: a single-file state whose buffer is 3-D with two slices. -/
def exVol2State : ReaderState := ⟨[], some (.vol [[[1]], [[2]]]), none, exInd, 0⟩

/-- Fixture: a single-file state whose buffer is 3-D with three slices. -/
def exVol3State : ReaderState :=
  ⟨[("k", "v")], some (.vol [[[1]], [[2]], [[3]]]), none, exInd, 0⟩

/-- Fixture: a single-file state whose buffer is 2-D. -/
def exImgState : ReaderState := ⟨[("a", "b")], some (.img [[3]]), none, exInd, 0⟩

/-- Fixture: a state whose series catalog is already resolved and cached. -/
def exCachedState : ReaderState :=
  ⟨[("a", "b")], some (.img [[3]]), some [exSeries0, exSeries1], exInd, 1⟩

/-- Lemma: with the data already loaded, promotion is the identity. -/
theorem load_first_some (env : Env) {s : ReaderState} {b : PixelBuf}
    (h : s.data = some b) : load_first env s = (.ok b, s) := by
  simp [load_first, h]

/-- Lemma: a cached catalog is returned unchanged. -/
theorem series_cached (env : Env) {s : ReaderState} {c : List DicomSeries}
    (h : s.series = some c) : series env s = (c, s) := by
  simp [series, h]

/-- Lemma: a first catalog access discovers, caches, and counts. -/
theorem series_fresh (env : Env) {s : ReaderState} (h : s.series = none) :
    series env s = (env.catalogAt s.discoveries,
      { s with series := some (env.catalogAt s.discoveries),
               discoveries := s.discoveries + 1 }) := by
  simp [series, h]

/-- Lemma: the catalog accessor caches what it returns. -/
theorem series_caches (env : Env) (s : ReaderState) :
    (series env s).2.series = some (series env s).1 ∧
    (series env s).2.data = s.data ∧ (series env s).2.info = s.info := by
  unfold series
  cases h : s.series <;> simp [h]

/-- Lemma: re-running the catalog accessor on its own post-state changes
nothing. -/
theorem series_idem (env : Env) {s : ReaderState} {c : List DicomSeries}
    {t : ReaderState} (h : series env s = (c, t)) : series env t = (c, t) := by
  unfold series at h
  cases hs : s.series with
  | some c0 => rw [hs] at h; cases h; simp [series, hs]
  | none => rw [hs] at h; cases h; simp [series]

/-- Lemma: after a successful promotion the state holds the returned buffer
and keeps its metadata coherent with it. -/
theorem load_first_ok (env : Env) {s : ReaderState} {b : PixelBuf}
    {t : ReaderState} (h : load_first env s = (.ok b, t)) : t.data = some b := by
  unfold load_first at h
  cases hd : s.data with
  | some b0 =>
    rw [hd] at h
    simp only [Prod.mk.injEq, Except.ok.injEq] at h
    obtain ⟨h1, h2⟩ := h
    rw [← h2, hd, h1]
  | none =>
    rw [hd] at h
    rcases hs : series env s with ⟨cat, s1⟩
    rw [hs] at h
    cases cat with
    | nil => simp at h
    | cons ser rest =>
      cases hi : ser.items with
      | nil => simp [hi] at h
      | cons dcm tl =>
        simp [hi] at h
        obtain ⟨h1, h2⟩ := h
        rw [← h2]
        simp [h1]

/-- Lemma: promotion on its own post-state returns the same result and moves
nowhere. -/
theorem load_first_idem (env : Env) {s : ReaderState} {r : Except Err PixelBuf}
    {t : ReaderState} (h : load_first env s = (r, t)) :
    load_first env t = (r, t) := by
  unfold load_first at h
  cases hd : s.data with
  | some b0 =>
    rw [hd] at h
    simp only [Prod.mk.injEq] at h
    obtain ⟨h1, h2⟩ := h
    subst h1; subst h2
    exact load_first_some env hd
  | none =>
    rw [hd] at h
    rcases hs : series env s with ⟨cat, s1⟩
    rw [hs] at h
    have hs1 : s1.series = some cat := by
      have := (series_caches env s).1
      rw [hs] at this
      exact this
    have hd1 : s1.data = none := by
      have := (series_caches env s).2.1
      rw [hs, hd] at this
      exact this
    cases cat with
    | nil =>
      simp at h
      obtain ⟨h1, h2⟩ := h
      subst h2
      rw [← h1]
      unfold load_first
      rw [hd1, series_cached env hs1]
    | cons ser rest =>
      cases hi : ser.items with
      | nil =>
        simp [hi] at h
        obtain ⟨h1, h2⟩ := h
        subst h2
        rw [← h1]
        unfold load_first
        rw [hd1, series_cached env hs1]
        simp [hi]
      | cons dcm tl =>
        simp [hi] at h
        obtain ⟨h1, h2⟩ := h
        subst h2
        rw [← h1]
        exact load_first_some env rfl

/-- How one step can move the lazy-series fields: either it leaves them alone,
or it performs the one discovery (only possible while the cache is empty). -/
def SeriesStep (env : Env) (s t : ReaderState) : Prop :=
  (t.series = s.series ∧ t.discoveries = s.discoveries) ∨
  (s.series = none ∧ t.series = some (env.catalogAt s.discoveries) ∧
    t.discoveries = s.discoveries + 1)

/-- Lemma: `SeriesStep` composes. -/
theorem SeriesStep.trans {env : Env} {s t u : ReaderState}
    (h1 : SeriesStep env s t) (h2 : SeriesStep env t u) :
    SeriesStep env s u := by
  rcases h1 with ⟨e1, e2⟩ | ⟨e0, e1, e2⟩
  · rcases h2 with ⟨f1, f2⟩ | ⟨f0, f1, f2⟩
    · exact Or.inl ⟨by rw [f1, e1], by rw [f2, e2]⟩
    · exact Or.inr ⟨by rw [← e1, f0], by rw [f1, e2], by rw [f2, e2]⟩
  · rcases h2 with ⟨f1, f2⟩ | ⟨f0, f1, f2⟩
    · exact Or.inr ⟨e0, by rw [f1, e1], by rw [f2, e2]⟩
    · rw [e1] at f0; cases f0

/-- Lemma: the catalog accessor is a `SeriesStep`. -/
theorem series_step (env : Env) (s : ReaderState) :
    SeriesStep env s (series env s).2 := by
  unfold series SeriesStep
  cases h : s.series <;> simp [h]

/-- Lemma: promotion is a `SeriesStep`. -/
theorem load_first_step (env : Env) (s : ReaderState) :
    SeriesStep env s (load_first env s).2 := by
  unfold load_first
  cases hd : s.data with
  | some b => exact Or.inl ⟨rfl, rfl⟩
  | none =>
    rcases hs : series env s with ⟨cat, s1⟩
    have hstep : SeriesStep env s s1 := by
      have := series_step env s
      rw [hs] at this
      exact this
    cases cat with
    | nil => simpa using hstep
    | cons ser rest =>
      cases hi : ser.items with
      | nil => simpa [hi] using hstep
      | cons dcm tl =>
        simp only [hi]
        rcases hstep with ⟨e1, e2⟩ | ⟨e0, e1, e2⟩
        · exact Or.inl ⟨e1, e2⟩
        · exact Or.inr ⟨e0, e1, e2⟩

/-- Lemma: a length query is a `SeriesStep`. -/
theorem get_length_step (env : Env) (mode : Char) (s : ReaderState) :
    SeriesStep env s (get_length env mode s).2 := by
  unfold get_length
  rcases hl : load_first env s with ⟨r0, t0⟩
  have hstep : SeriesStep env s t0 := by
    have := load_first_step env s
    rw [hl] at this
    exact this
  have hstep2 : SeriesStep env s (series env t0).2 :=
    hstep.trans (series_step env t0)
  cases r0 with
  | error e => exact hstep
  | ok b =>
    simp only
    split
    · exact hstep
    · split
      · split
        · exact hstep
        · exact hstep2
      · split
        · split
          · exact hstep
          · exact hstep2
        · split
          · exact hstep2
          · exact hstep

/-- Lemma: a data query is a `SeriesStep`. -/
theorem get_data_step (env : Env) (mode : Char) (index : Nat)
    (s : ReaderState) : SeriesStep env s (get_data env mode index s).2 := by
  unfold get_data
  rcases hl : load_first env s with ⟨r0, t0⟩
  have hstep : SeriesStep env s t0 := by
    have := load_first_step env s
    rw [hl] at this
    exact this
  have hstep2 : SeriesStep env s (series env t0).2 :=
    hstep.trans (series_step env t0)
  cases r0 with
  | error e => exact hstep
  | ok b =>
    simp only
    split
    · split
      · split <;> exact hstep
      · split
        · exact hstep
        · exact hstep
    · split
      · split
        · split <;> exact hstep
        · split <;> exact hstep2
      · split
        · split
          · exact hstep
          · split <;> exact hstep2
        · exact hstep

/-- Lemma: a metadata query is a `SeriesStep`. -/
theorem get_meta_step (env : Env) (mode : Char) (index : Option Nat)
    (s : ReaderState) : SeriesStep env s (get_meta_data env mode index s).2 := by
  unfold get_meta_data
  rcases hl : load_first env s with ⟨r0, t0⟩
  have hstep : SeriesStep env s t0 := by
    have := load_first_step env s
    rw [hl] at this
    exact this
  have hstep2 : SeriesStep env s (series env t0).2 :=
    hstep.trans (series_step env t0)
  cases r0 with
  | error e => exact hstep
  | ok b =>
    simp only
    cases index with
    | none => exact hstep
    | some j =>
      simp only
      split
      · exact hstep
      · split
        · split
          · exact hstep
          · split <;> exact hstep2
        · split
          · split
            · exact hstep
            · split <;> exact hstep2
          · exact hstep

/-- Lemma: every query is a `SeriesStep`. -/
theorem runOp_step (env : Env) (s : ReaderState) (op : ReaderOp) :
    SeriesStep env s (runOp env s op) := by
  cases op with
  | lengthOp mode => exact get_length_step env mode s
  | dataOp mode index => exact get_data_step env mode index s
  | metaOp mode index => exact get_meta_step env mode index s

/-- Lemma: repeating a length query on its own post-state reproduces the first
call exactly (same value, same state). -/
theorem get_length_idem (env : Env) (mode : Char) (s : ReaderState) :
    get_length env mode (get_length env mode s).2 = get_length env mode s := by
  unfold get_length
  rcases hl : load_first env s with ⟨r0, t0⟩
  cases r0 with
  | error e =>
    simp only
    rw [load_first_idem env hl]
  | ok b =>
    have hb : t0.data = some b := load_first_ok env hl
    have hl0 : load_first env t0 = (.ok b, t0) := load_first_some env hb
    simp only
    rcases hs2 : series env t0 with ⟨cat, s2⟩
    have hs2i : series env s2 = (cat, s2) := series_idem env hs2
    have hb2 : s2.data = some b := by
      have := (series_caches env t0).2.1
      rw [hs2] at this
      rw [this, hb]
    have hl2 : load_first env s2 = (.ok b, s2) := load_first_some env hb2
    by_cases hi : mode = 'i'
    · simp [hi, hl0]
    · by_cases hI : mode = 'I'
      · by_cases hn : nslicesOf b > 1
        · simp [hi, hI, hn, hl0]
        · simp [hi, hI, hn, hl0, hs2, hl2, hs2i]
      · by_cases hv : mode = 'v'
        · by_cases hn : nslicesOf b > 1
          · simp [hi, hI, hv, hn, hl0]
          · simp [hi, hI, hv, hn, hl0, hs2, hl2, hs2i]
        · by_cases hV : mode = 'V'
          · simp [hi, hI, hv, hV, hl0, hs2, hl2, hs2i]
          · simp [hi, hI, hv, hV, hl0]

/-- Lemma: repeating a data query on its own post-state reproduces the first
call exactly (same value, same state). -/
theorem get_data_idem (env : Env) (mode : Char) (index : Nat)
    (s : ReaderState) :
    get_data env mode index (get_data env mode index s).2 =
      get_data env mode index s := by
  unfold get_data
  rcases hl : load_first env s with ⟨r0, t0⟩
  cases r0 with
  | error e =>
    simp only
    rw [load_first_idem env hl]
  | ok b =>
    have hb : t0.data = some b := load_first_ok env hl
    have hl0 : load_first env t0 = (.ok b, t0) := load_first_some env hb
    simp only
    rcases hs2 : series env t0 with ⟨cat, s2⟩
    have hs2i : series env s2 = (cat, s2) := series_idem env hs2
    have hb2 : s2.data = some b := by
      have := (series_caches env t0).2.1
      rw [hs2] at this
      rw [this, hb]
    have hl2 : load_first env s2 = (.ok b, s2) := load_first_some env hb2
    by_cases hi : mode = 'i'
    · by_cases hn : nslicesOf b > 1
      · rcases hnp : npIndex b index with e | sl <;>
          simp [hi, hn, hl0, hnp]
      · by_cases hz : index = 0 <;> simp [hi, hn, hz, hl0]
    · by_cases hI : mode = 'I'
      · by_cases hfast : index = 0 ∧ nslicesOf b > 1
        · obtain ⟨hz, hn1⟩ := hfast
          subst hz
          rcases hnp : npIndex b 0 with e | sl <;>
            simp [hi, hI, hn1, hl0, hnp]
        · rcases hg : (flattenSeries cat)[index]? with _ | d <;>
            simp [hi, hI, hfast, hl0, hs2, hl2, hs2i, hg]
      · by_cases hvV : mode = 'v' ∨ mode = 'V'
        · by_cases hfast : index = 0 ∧ nslicesOf b > 1
          · simp [hi, hI, hvV, hfast, hl0]
          · rcases hg : cat[index]? with _ | serie <;>
              simp [hi, hI, hvV, hfast, hl0, hs2, hl2, hs2i, hg]
        · simp [hi, hI, hvV, hl0]

/-- C1 counterexample: SingleImage mode on a file whose loaded buffer is 3-D
with N = 1 slice.  The claim says `data(0)` returns slice `0` of the buffer
(the 2-D image `img [[5]]`); the code tests `nslices > 1`, not 3-D-ness, so
it returns the whole 3-D buffer `vol [[[5]]]` instead. -/
theorem singleImage_one_slice_vol_cex :
    (get_data exEnvEmpty 'i' 0 exVol1State).1 =
      .ok (.vol [[[5]]], [("k", "v")]) ∧
    PixelBuf.vol [[[5]]] ≠ PixelBuf.img [[5]] ∧
    (get_length exEnvEmpty 'i' exVol1State).1 = .ok 1 := by
  refine ⟨rfl, by decide, rfl⟩

/-- C1 (amended): in SingleImage mode, for a reader whose loaded buffer is 3-D
with N >= 2 slices, `length` returns N, `data(i)` for `i < N` returns slice
`i` with the loaded metadata, and `data(N)` raises an index error; for a 2-D
(single-slice) buffer, `length` is 1, `data(0)` returns the whole buffer with
the loaded metadata, and `data(1)` raises an index error; and with the data
loaded the series catalog is never consulted in this mode (results do not
depend on the environment and the state is untouched). -/
theorem singleImage_file_indexing (env : Env) (s : ReaderState) :
    (∀ sl, s.data = some (.vol sl) → 2 ≤ sl.length →
      (get_length env 'i' s).1 = .ok sl.length ∧
      (∀ k, ∀ hk : k < sl.length,
        (get_data env 'i' k s).1 = .ok (.img (sl.get ⟨k, hk⟩), s.info)) ∧
      (get_data env 'i' sl.length s).1 =
        .error (.indexError "index out of range")) ∧
    (∀ rows, s.data = some (.img rows) →
      (get_length env 'i' s).1 = .ok 1 ∧
      (get_data env 'i' 0 s).1 = .ok (.img rows, s.info) ∧
      (get_data env 'i' 1 s).1 =
        .error (.indexError "Dicom file contains only one slice.")) ∧
    (∀ b, s.data = some b → ∀ env2 k,
      get_data env 'i' k s = get_data env2 'i' k s ∧
      get_length env 'i' s = get_length env2 'i' s ∧
      (get_data env 'i' k s).2 = s ∧ (get_length env 'i' s).2 = s) := by
  refine ⟨?_, ?_, ?_⟩
  · intro sl hsl hlen
    have hl := load_first_some env hsl
    have hgt : nslicesOf (.vol sl) > 1 := by simp [nslicesOf]; omega
    refine ⟨by simp [get_length, hl, nslicesOf], ?_, ?_⟩
    · intro k hk
      have hget : sl[k]? = some sl[k] := List.getElem?_eq_getElem hk
      simp [get_data, hl, hgt, npIndex, hget]
    · have hnone : sl[sl.length]? = none := by simp
      simp [get_data, hl, hgt, npIndex, hnone]
  · intro rows hrows
    have hl := load_first_some env hrows
    refine ⟨by simp [get_length, hl, nslicesOf], ?_, ?_⟩
    · simp [get_data, hl, nslicesOf]
    · simp [get_data, hl, nslicesOf]
  · intro b hb env2 k
    have h1 := load_first_some env hb
    have h2 := load_first_some env2 hb
    by_cases hgt : nslicesOf b > 1
    · refine ⟨by simp [get_data, h1, h2, hgt], by simp [get_length, h1, h2], ?_, ?_⟩
      · rcases hnp : npIndex b k with e | sl <;> simp [get_data, h1, hgt, hnp]
      · simp [get_length, h1]
    · by_cases hk : k = 0 <;>
        exact ⟨by simp [get_data, h1, h2, hgt, hk],
               by simp [get_length, h1, h2],
               by simp [get_data, h1, hgt, hk],
               by simp [get_length, h1]⟩

/-- C1 witness: the amended SingleImage theorem applied to a concrete 3-slice
3-D buffer, a concrete 2-D buffer, and two different environments. -/
theorem singleImage_file_indexing_witness :
    ((get_length exEnv 'i' exVol3State).1 = .ok 3 ∧
     (get_data exEnv 'i' 1 exVol3State).1 = .ok (.img [[2]], [("k", "v")]) ∧
     (get_data exEnv 'i' 3 exVol3State).1 =
       .error (.indexError "index out of range")) ∧
    ((get_length exEnv 'i' exImgState).1 = .ok 1 ∧
     (get_data exEnv 'i' 1 exImgState).1 =
       .error (.indexError "Dicom file contains only one slice.")) ∧
    get_data exEnv 'i' 2 exVol3State = get_data exEnvEmpty 'i' 2 exVol3State := by
  have h1 := (singleImage_file_indexing exEnv exVol3State).1
    [[[1]], [[2]], [[3]]] rfl (by decide)
  have h2 := (singleImage_file_indexing exEnv exImgState).2.1 [[3]] rfl
  have h3 := (singleImage_file_indexing exEnv exVol3State).2.2
    (.vol [[[1]], [[2]], [[3]]]) rfl exEnvEmpty 2
  exact ⟨⟨h1.1, h1.2.1 1 (by decide), h1.2.2⟩, ⟨h2.1, h2.2.2⟩, h3.1⟩

/-- C2: in MultiImage mode over a directory source whose catalog holds series
of sizes 2 and 3 (and whose promoted first file is single-slice), `length`
returns 5, `data(0)` and `data(1)` resolve inside series 0, `data(2)` to
`data(4)` inside series 1 (series concatenated in catalog order), and
`data(5)` raises an index error. -/
theorem multiImage_directory_indexing (env : Env) (s : ReaderState)
    (sa sb : DicomSeries) (a b c d e : SimpleDicomReader)
    (hdata : s.data = none) (hser : s.series = none)
    (hcat : env.catalogAt s.discoveries = [sa, sb])
    (ha : sa.items = [a, b]) (hb : sb.items = [c, d, e])
    (hns : nslicesOf a.array = 1) :
    (get_length env 'I' s).1 = .ok 5 ∧
    (get_data env 'I' 0 s).1 = .ok (a.array, a.info) ∧
    (get_data env 'I' 1 s).1 = .ok (b.array, b.info) ∧
    (get_data env 'I' 2 s).1 = .ok (c.array, c.info) ∧
    (get_data env 'I' 3 s).1 = .ok (d.array, d.info) ∧
    (get_data env 'I' 4 s).1 = .ok (e.array, e.info) ∧
    (get_data env 'I' 5 s).1 = .error (.indexError "list index out of range") := by
  have hlf : load_first env s =
      (.ok a.array,
        ⟨a.info, some a.array, some [sa, sb], s.progressIndicator,
          s.discoveries + 1⟩) := by
    simp [load_first, hdata, series, hser, hcat, ha]
  have hsc : series env
      (⟨a.info, some a.array, some [sa, sb], s.progressIndicator,
        s.discoveries + 1⟩ : ReaderState) =
      ([sa, sb],
        ⟨a.info, some a.array, some [sa, sb], s.progressIndicator,
          s.discoveries + 1⟩) := series_cached env rfl
  have hfl : flattenSeries [sa, sb] = [a, b, c, d, e] := by
    simp [flattenSeries, ha, hb]
  refine ⟨?_, ?_, ?_, ?_, ?_, ?_, ?_⟩ <;>
    simp [get_length, get_data, hlf, hsc, hfl, hns, ha, hb]

/-- C2 witness: the MultiImage directory theorem applied to the concrete
catalog of sizes 2 and 3. -/
theorem multiImage_directory_indexing_witness :
    (get_length exEnv 'I' exDirState).1 = .ok 5 ∧
    (get_data exEnv 'I' 0 exDirState).1 = .ok ((exDcm 0).array, (exDcm 0).info) ∧
    (get_data exEnv 'I' 1 exDirState).1 = .ok ((exDcm 1).array, (exDcm 1).info) ∧
    (get_data exEnv 'I' 2 exDirState).1 = .ok ((exDcm 2).array, (exDcm 2).info) ∧
    (get_data exEnv 'I' 3 exDirState).1 = .ok ((exDcm 3).array, (exDcm 3).info) ∧
    (get_data exEnv 'I' 4 exDirState).1 = .ok ((exDcm 4).array, (exDcm 4).info) ∧
    (get_data exEnv 'I' 5 exDirState).1 =
      .error (.indexError "list index out of range") :=
  multiImage_directory_indexing exEnv exDirState exSeries0 exSeries1
    (exDcm 0) (exDcm 1) (exDcm 2) (exDcm 3) (exDcm 4)
    rfl rfl rfl rfl rfl rfl

/-- C3 counterexample: a loaded buffer that is 3-D but holds exactly one
slice, with a two-series catalog.  The claim says SingleVolume then gives
`length == 1`; the code tests `nslices > 1` (not 3-D-ness), falls through to
the catalog, and returns 2. -/
theorem singleVolume_3d_one_slice_cex :
    PixelBuf.ndim (.vol [[[9]]]) = 3 ∧
    exVol1bState.data = some (.vol [[[9]]]) ∧
    (get_length exEnv 'v' exVol1bState).1 = .ok 2 ∧
    (Except.ok 2 : Except Err Nat) ≠ .ok 1 := by
  exact ⟨rfl, rfl, rfl, by simp⟩

/-- C3 (amended): over a directory source with a two-series catalog (promoted
first file single-slice), both volume modes give `length == 2` and `data(0)`,
`data(1)` each return one full-series volume with its metadata.  When the
loaded buffer has more than one slice, SingleVolume gives `length == 1`
whereas MultiVolume still consults the series catalog and returns the number
of series in it. -/
theorem volume_modes_length_and_data (env : Env) (s : ReaderState) :
    (∀ sa sb a tl, s.data = none → s.series = none →
      env.catalogAt s.discoveries = [sa, sb] → sa.items = a :: tl →
      nslicesOf a.array = 1 →
      ((get_length env 'v' s).1 = .ok 2 ∧ (get_length env 'V' s).1 = .ok 2 ∧
       (get_data env 'v' 0 s).1 = .ok (sa.volume, sa.info) ∧
       (get_data env 'v' 1 s).1 = .ok (sb.volume, sb.info) ∧
       (get_data env 'V' 0 s).1 = .ok (sa.volume, sa.info) ∧
       (get_data env 'V' 1 s).1 = .ok (sb.volume, sb.info))) ∧
    (∀ b, s.data = some b → 1 < nslicesOf b →
      (get_length env 'v' s).1 = .ok 1 ∧
      (get_length env 'V' s).1 = .ok (series env s).1.length ∧
      (get_length env 'V' s).2 = (series env s).2) := by
  constructor
  · intro sa sb a tl hdata hser hcat ha hns
    have hlf : load_first env s =
        (.ok a.array,
          ⟨a.info, some a.array, some [sa, sb], s.progressIndicator,
            s.discoveries + 1⟩) := by
      simp [load_first, hdata, series, hser, hcat, ha]
    have hsc : series env
        (⟨a.info, some a.array, some [sa, sb], s.progressIndicator,
          s.discoveries + 1⟩ : ReaderState) =
        ([sa, sb],
          ⟨a.info, some a.array, some [sa, sb], s.progressIndicator,
            s.discoveries + 1⟩) := series_cached env rfl
    refine ⟨?_, ?_, ?_, ?_, ?_, ?_⟩ <;>
      simp [get_length, get_data, hlf, hsc, hns]
  · intro b hb hgt
    have hlf := load_first_some env hb
    rcases hs : series env s with ⟨cat, s2⟩
    refine ⟨by simp [get_length, hlf, hgt], ?_, ?_⟩ <;>
      simp [get_length, hlf, hgt, hs]

/-- C3 witness: the amended volume-modes theorem applied to the concrete
two-series directory and to a concrete two-slice loaded buffer. -/
theorem volume_modes_length_and_data_witness :
    ((get_length exEnv 'v' exDirState).1 = .ok 2 ∧
     (get_data exEnv 'v' 1 exDirState).1 = .ok (exSeries1.volume, exSeries1.info) ∧
     (get_data exEnv 'V' 0 exDirState).1 = .ok (exSeries0.volume, exSeries0.info)) ∧
    ((get_length exEnv 'v' exVol2State).1 = .ok 1 ∧
     (get_length exEnv 'V' exVol2State).1 = .ok 2) := by
  have h1 := (volume_modes_length_and_data exEnv exDirState).1
    exSeries0 exSeries1 (exDcm 0) [exDcm 1] rfl rfl rfl rfl rfl
  have h2 := (volume_modes_length_and_data exEnv exVol2State).2
    (.vol [[[1]], [[2]]]) rfl (by decide)
  exact ⟨⟨h1.1, h1.2.2.2.1, h1.2.2.2.2.1⟩, ⟨h2.1, h2.2.1⟩⟩

/-- C4 counterexample: SingleVolume mode with a loaded two-slice buffer and a
two-series catalog.  `length` returns 1, yet `data(1)` — an index outside
`[0, 1)` — succeeds with series 1's volume instead of raising a bounds
error: the volume modes resolve indices past 0 through the series catalog,
ignoring `length`. -/
theorem data_bounds_iff_length_cex :
    (get_length exEnv 'v' exVol2State).1 = .ok 1 ∧
    (get_data exEnv 'v' 1 exVol2State).1 =
      .ok (exSeries1.volume, exSeries1.info) := by
  exact ⟨rfl, rfl⟩

/-- C4 (amended): for every recognized mode and nonnegative index `i`, when
the loaded buffer is single-slice (`nslices == 1`, the promoted-directory
case) — or the mode is SingleImage and the buffer nonempty — `data(i)`
raises a bounds error exactly when `i` lies outside `[0, length(mode))`, and
otherwise returns a complete (buffer, metadata) pair.  (With a multi-slice
loaded buffer, MultiImage and the volume modes resolve indices through the
series catalog, where this equivalence can fail, as the counterexample
shows.) -/
theorem data_bounds_iff_length (env : Env) (mode : Char) (s : ReaderState)
    (b : PixelBuf) (hb : s.data = some b)
    (hmode : mode = 'i' ∨ mode = 'I' ∨ mode = 'v' ∨ mode = 'V')
    (hcase : nslicesOf b = 1 ∨ (mode = 'i' ∧ 1 ≤ nslicesOf b)) (i : Nat) :
    ∃ n, (get_length env mode s).1 = .ok n ∧
      (i < n → ∃ p, (get_data env mode i s).1 = .ok p) ∧
      (n ≤ i → ∃ m, (get_data env mode i s).1 = .error (.indexError m)) := by
  have hlf := load_first_some env hb
  rcases hs : series env s with ⟨cat, s2⟩
  rcases hmode with hm | hm | hm | hm
  · subst hm
    by_cases hgt : nslicesOf b > 1
    · rcases b with x | xs | xs | sl
      · simp [nslicesOf] at hgt
      · simp [nslicesOf] at hgt
      · simp [nslicesOf] at hgt
      · have hgt' : 1 < sl.length := by simpa [nslicesOf] using hgt
        refine ⟨sl.length, by simp [get_length, hlf, nslicesOf], ?_, ?_⟩
        · intro hi
          have hg : sl[i]? = some sl[i] := List.getElem?_eq_getElem hi
          exact ⟨(.img sl[i], s.info), by simp [get_data, hlf, hgt, npIndex, hg]⟩
        · intro hi
          have hg : sl[i]? = none := by
            rw [List.getElem?_eq_none_iff]
            exact hi
          exact ⟨"index out of range",
            by simp [get_data, hlf, hgt, npIndex, hg]⟩
    · have h1 : nslicesOf b = 1 := by
        rcases hcase with h | h
        · exact h
        · omega
      refine ⟨1, by simp [get_length, hlf, h1], ?_, ?_⟩
      · intro hi
        have hz : i = 0 := by omega
        exact ⟨(b, s.info), by simp [get_data, hlf, h1, hz]⟩
      · intro hi
        have hz : ¬i = 0 := by omega
        exact ⟨"Dicom file contains only one slice.",
          by simp [get_data, hlf, h1, hz]⟩
  · subst hm
    have h1 : nslicesOf b = 1 := by
      rcases hcase with h | h
      · exact h
      · exact absurd h.1 (by decide)
    have hlen : (flattenSeries cat).length =
        (cat.map (fun serie => serie.items.length)).sum := by
      simp only [flattenSeries, List.length_flatten, List.map_map]
      rfl
    refine ⟨(cat.map (fun serie => serie.items.length)).sum,
      by simp [get_length, hlf, h1, hs], ?_, ?_⟩
    · intro hi
      have hg : (flattenSeries cat)[i]? = some (flattenSeries cat)[i] :=
        List.getElem?_eq_getElem (by omega)
      exact ⟨((flattenSeries cat)[i].array, (flattenSeries cat)[i].info),
        by simp [get_data, hlf, h1, hs, hg]⟩
    · intro hi
      have hg : (flattenSeries cat)[i]? = none := by
        rw [List.getElem?_eq_none_iff]
        omega
      exact ⟨"list index out of range", by simp [get_data, hlf, h1, hs, hg]⟩
  · subst hm
    have h1 : nslicesOf b = 1 := by
      rcases hcase with h | h
      · exact h
      · exact absurd h.1 (by decide)
    refine ⟨cat.length, by simp [get_length, hlf, h1, hs], ?_, ?_⟩
    · intro hi
      have hg : cat[i]? = some cat[i] := List.getElem?_eq_getElem hi
      exact ⟨(cat[i].volume, cat[i].info), by simp [get_data, hlf, h1, hs, hg]⟩
    · intro hi
      have hg : cat[i]? = none := by
        rw [List.getElem?_eq_none_iff]
        exact hi
      exact ⟨"list index out of range", by simp [get_data, hlf, h1, hs, hg]⟩
  · subst hm
    have h1 : nslicesOf b = 1 := by
      rcases hcase with h | h
      · exact h
      · exact absurd h.1 (by decide)
    refine ⟨cat.length, by simp [get_length, hlf, hs], ?_, ?_⟩
    · intro hi
      have hg : cat[i]? = some cat[i] := List.getElem?_eq_getElem hi
      exact ⟨(cat[i].volume, cat[i].info), by simp [get_data, hlf, h1, hs, hg]⟩
    · intro hi
      have hg : cat[i]? = none := by
        rw [List.getElem?_eq_none_iff]
        exact hi
      exact ⟨"list index out of range", by simp [get_data, hlf, h1, hs, hg]⟩

/-- C4 witness: the amended bounds theorem applied in MultiImage mode to a
loaded single-slice file over the concrete five-item catalog, at an in-range
and at an out-of-range index. -/
theorem data_bounds_iff_length_witness :
    (∃ n, (get_length exEnv 'I' exImgState).1 = .ok n ∧
      (2 < n → ∃ p, (get_data exEnv 'I' 2 exImgState).1 = .ok p) ∧
      (n ≤ 2 → ∃ m, (get_data exEnv 'I' 2 exImgState).1 =
        .error (.indexError m))) ∧
    (∃ n, (get_length exEnv 'I' exImgState).1 = .ok n ∧
      (7 < n → ∃ p, (get_data exEnv 'I' 7 exImgState).1 = .ok p) ∧
      (n ≤ 7 → ∃ m, (get_data exEnv 'I' 7 exImgState).1 =
        .error (.indexError m))) :=
  ⟨data_bounds_iff_length exEnv 'I' exImgState (.img [[3]]) rfl
      (Or.inr (Or.inl rfl)) (Or.inl rfl) 2,
   data_bounds_iff_length exEnv 'I' exImgState (.img [[3]]) rfl
      (Or.inr (Or.inl rfl)) (Or.inl rfl) 7⟩

/-- C5 counterexample: SingleImage mode on a single-slice file at index 1:
`data(1)` raises a bounds error, but the indexed metadata request ignores the
index entirely and returns the loaded metadata — metadata retrieval does not
mirror data retrieval's index resolution in this mode. -/
theorem meta_mirrors_data_cex :
    (get_data exEnv 'i' 1 exImgState).1 =
      .error (.indexError "Dicom file contains only one slice.") ∧
    (get_meta_data exEnv 'i' (some 1) exImgState).1 = .ok [("a", "b")] := by
  exact ⟨rfl, rfl⟩

/-- C5 (amended): in MultiImage and the two volume modes, indexed metadata
retrieval mirrors data retrieval exactly — same fast paths, same flattening,
a bounds error exactly when `data(i)` raises one, and the same metadata
component — and it leaves the reader in the same state.  In SingleImage mode
an indexed metadata request instead returns the directly loaded metadata
unconditionally, and an unindexed request returns it in every mode. -/
theorem meta_mirrors_data (env : Env) (s : ReaderState) :
    (∀ mode i, mode = 'I' ∨ mode = 'v' ∨ mode = 'V' →
      (get_meta_data env mode (some i) s).1 =
        (get_data env mode i s).1.map Prod.snd ∧
      (get_meta_data env mode (some i) s).2 = (get_data env mode i s).2) ∧
    (∀ b, s.data = some b →
      (∀ j, get_meta_data env 'i' (some j) s = (.ok s.info, s)) ∧
      (∀ mode, get_meta_data env mode none s = (.ok s.info, s))) := by
  constructor
  · intro mode i hm
    rcases hl : load_first env s with ⟨r0, t0⟩
    cases r0 with
    | error e =>
      constructor <;> simp [get_meta_data, get_data, hl, Except.map]
    | ok b =>
      rcases hs2 : series env t0 with ⟨cat, s2⟩
      rcases hm with hm | hm | hm <;> subst hm
      · by_cases hfast : i = 0 ∧ nslicesOf b > 1
        · obtain ⟨hz, hgt⟩ := hfast
          subst hz
          rcases b with x | xs | xs | sl
          · simp [nslicesOf] at hgt
          · simp [nslicesOf] at hgt
          · simp [nslicesOf] at hgt
          · have hgt' : 1 < sl.length := by simpa [nslicesOf] using hgt
            have hg : sl[0]? = some sl[0] :=
              List.getElem?_eq_getElem (by omega)
            constructor <;>
              simp [get_meta_data, get_data, hl, hgt', npIndex, hg, nslicesOf,
                Except.map]
        · rcases hg : (flattenSeries cat)[i]? with _ | d <;>
            constructor <;>
            simp [get_meta_data, get_data, hl, hs2, hfast, hg, Except.map]
      · by_cases hfast : i = 0 ∧ nslicesOf b > 1
        · constructor <;>
            simp [get_meta_data, get_data, hl, hfast, Except.map]
        · rcases hg : cat[i]? with _ | serie <;>
            constructor <;>
            simp [get_meta_data, get_data, hl, hs2, hfast, hg, Except.map]
      · by_cases hfast : i = 0 ∧ nslicesOf b > 1
        · constructor <;>
            simp [get_meta_data, get_data, hl, hfast, Except.map]
        · rcases hg : cat[i]? with _ | serie <;>
            constructor <;>
            simp [get_meta_data, get_data, hl, hs2, hfast, hg, Except.map]
  · intro b hb
    have hl := load_first_some env hb
    exact ⟨fun j => by simp [get_meta_data, hl],
           fun mode => by simp [get_meta_data, hl]⟩

/-- C5 witness: the amended metadata theorem applied at concrete inputs — an
in-range MultiImage index, an out-of-range SingleVolume index, the
SingleImage indexed case and the unindexed case. -/
theorem meta_mirrors_data_witness :
    (get_meta_data exEnv 'I' (some 2) exDirState).1 =
      (get_data exEnv 'I' 2 exDirState).1.map Prod.snd ∧
    (get_meta_data exEnv 'v' (some 9) exDirState).2 =
      (get_data exEnv 'v' 9 exDirState).2 ∧
    get_meta_data exEnv 'i' (some 1) exImgState = (.ok [("a", "b")], exImgState) ∧
    get_meta_data exEnv 'V' none exImgState = (.ok [("a", "b")], exImgState) := by
  have h1 := (meta_mirrors_data exEnv exDirState).1 'I' 2 (Or.inl rfl)
  have h2 := (meta_mirrors_data exEnv exDirState).1 'v' 9 (Or.inr (Or.inl rfl))
  have h3 := (meta_mirrors_data exEnv exImgState).2 (.img [[3]]) rfl
  exact ⟨h1.1, h2.2, h3.1 1, h3.2 'V'⟩

/-- C6: when a single-file parse fails with a compressed-payload error naming
JPEG, open with no decompression tool available, or with a failing tool
invocation, re-raises the original parse failure unchanged; when the tool is
available and succeeds, the converted sibling file is re-parsed, the reader
opens on its contents, and `data(0)` returns the decompressed content. -/
theorem jpeg_recovery (oenv : OpenEnv) (progress : Progress) (msg : String)
    (hdir : oenv.isDir = false)
    (hparse : oenv.parseMain = .error (.compressedDicom msg))
    (hjpeg : containsSub msg "JPEG" = true) :
    (oenv.exe = none →
      open_reader oenv progress = .error (.compressedDicom msg)) ∧
    (oenv.callOk = false →
      open_reader oenv progress = .error (.compressedDicom msg)) ∧
    (∀ x dcm2 pi, oenv.exe = some x → oenv.callOk = true →
      oenv.parseConverted = .ok dcm2 → set_progress progress = .ok pi →
      open_reader oenv progress =
        .ok ⟨dcm2.info, some dcm2.array, none, pi, 0⟩ ∧
      (nslicesOf dcm2.array = 1 → ∀ env,
        (get_data env 'i' 0
          (⟨dcm2.info, some dcm2.array, none, pi, 0⟩ : ReaderState)).1 =
          .ok (dcm2.array, dcm2.info))) := by
  refine ⟨?_, ?_, ?_⟩
  · intro hexe
    simp [open_reader, hdir, parse_with_recovery, hparse, hjpeg, hexe]
  · intro hcall
    cases hexe : oenv.exe with
    | none => simp [open_reader, hdir, parse_with_recovery, hparse, hjpeg, hexe]
    | some x =>
      simp [open_reader, hdir, parse_with_recovery, hparse, hjpeg, hexe, hcall]
  · intro x dcm2 pi hexe hcall hconv hprog
    constructor
    · simp [open_reader, hdir, parse_with_recovery, hparse, hjpeg, hexe, hcall,
        hconv, hprog]
    · intro hns env
      have hl : load_first env
          (⟨dcm2.info, some dcm2.array, none, pi, 0⟩ : ReaderState) =
          (.ok dcm2.array, ⟨dcm2.info, some dcm2.array, none, pi, 0⟩) :=
        load_first_some env rfl
      simp [get_data, hl, hns]

/-- C6 witness: the recovery theorem applied to a concrete JPEG-compression
failure, in the no-tool, failed-invocation and successful-recovery
environments. -/
theorem jpeg_recovery_witness :
    open_reader ⟨false, .error (.compressedDicom "not JPEG data"), none, true,
        .ok (exDcm 7)⟩ .isTrue =
      .error (.compressedDicom "not JPEG data") ∧
    open_reader ⟨false, .error (.compressedDicom "not JPEG data"),
        some "dcmdjpeg", false, .ok (exDcm 7)⟩ .isTrue =
      .error (.compressedDicom "not JPEG data") ∧
    open_reader ⟨false, .error (.compressedDicom "not JPEG data"),
        some "dcmdjpeg", true, .ok (exDcm 7)⟩ .isTrue =
      .ok ⟨(exDcm 7).info, some (exDcm 7).array, none,
        .stdoutIndicator "Reading DICOM", 0⟩ ∧
    (get_data exEnv 'i' 0
        (⟨(exDcm 7).info, some (exDcm 7).array, none,
          .stdoutIndicator "Reading DICOM", 0⟩ : ReaderState)).1 =
      .ok ((exDcm 7).array, (exDcm 7).info) := by
  have h1 := jpeg_recovery
    ⟨false, .error (.compressedDicom "not JPEG data"), none, true, .ok (exDcm 7)⟩
    .isTrue "not JPEG data" rfl rfl (by decide)
  have h2 := jpeg_recovery
    ⟨false, .error (.compressedDicom "not JPEG data"), some "dcmdjpeg", false,
      .ok (exDcm 7)⟩ .isTrue "not JPEG data" rfl rfl (by decide)
  have h3 := jpeg_recovery
    ⟨false, .error (.compressedDicom "not JPEG data"), some "dcmdjpeg", true,
      .ok (exDcm 7)⟩ .isTrue "not JPEG data" rfl rfl (by decide)
  have h3' := h3.2.2 "dcmdjpeg" (exDcm 7) (.stdoutIndicator "Reading DICOM")
    rfl rfl rfl rfl
  exact ⟨h1.1 rfl, h2.2.1 rfl, h3'.1, h3'.2 rfl exEnv⟩

/-- C7: compressed-payload recovery is attempted only for a parse failure
naming the JPEG codec — any other failure kind, and any compressed-payload
failure not naming JPEG, propagates immediately with no recovery attempt
(the outcome does not even depend on the recovery environment) — and
recovery is strictly one-shot: when re-parsing the converted file fails with
a second JPEG compression error, that second error propagates with no second
recovery attempt. -/
theorem recovery_only_jpeg_one_shot (oenv : OpenEnv) (progress : Progress)
    (hdir : oenv.isDir = false) :
    (∀ e, oenv.parseMain = .error e → (∀ m, e ≠ .compressedDicom m) →
      open_reader oenv progress = .error e ∧
      (∀ ex ok2 pc, open_reader
        { oenv with exe := ex, callOk := ok2, parseConverted := pc } progress =
        .error e)) ∧
    (∀ m, oenv.parseMain = .error (.compressedDicom m) →
      containsSub m "JPEG" = false →
      open_reader oenv progress = .error (.compressedDicom m) ∧
      (∀ ex ok2 pc, open_reader
        { oenv with exe := ex, callOk := ok2, parseConverted := pc } progress =
        .error (.compressedDicom m))) ∧
    (∀ m m2 x, oenv.parseMain = .error (.compressedDicom m) →
      containsSub m "JPEG" = true → oenv.exe = some x → oenv.callOk = true →
      oenv.parseConverted = .error (.compressedDicom m2) →
      open_reader oenv progress = .error (.compressedDicom m2)) := by
  refine ⟨?_, ?_, ?_⟩
  · intro e hparse hnc
    constructor
    · cases e with
      | compressedDicom m => exact absurd rfl (hnc m)
      | indexError m => simp [open_reader, hdir, parse_with_recovery, hparse]
      | runtimeError m => simp [open_reader, hdir, parse_with_recovery, hparse]
      | valueError m => simp [open_reader, hdir, parse_with_recovery, hparse]
      | parseError m => simp [open_reader, hdir, parse_with_recovery, hparse]
    · intro ex ok2 pc
      cases e with
      | compressedDicom m => exact absurd rfl (hnc m)
      | indexError m => simp [open_reader, hdir, parse_with_recovery, hparse]
      | runtimeError m => simp [open_reader, hdir, parse_with_recovery, hparse]
      | valueError m => simp [open_reader, hdir, parse_with_recovery, hparse]
      | parseError m => simp [open_reader, hdir, parse_with_recovery, hparse]
  · intro m hparse hnj
    constructor
    · simp [open_reader, hdir, parse_with_recovery, hparse, hnj]
    · intro ex ok2 pc
      simp [open_reader, hdir, parse_with_recovery, hparse, hnj]
  · intro m m2 x hparse hj hexe hcall hconv
    simp [open_reader, hdir, parse_with_recovery, hparse, hj, hexe, hcall,
      hconv]

/-- C7 witness: the scoped-recovery theorem applied to a concrete generic
parse failure, a concrete non-JPEG compression failure, and a concrete
second compression failure after a successful tool run. -/
theorem recovery_only_jpeg_one_shot_witness :
    open_reader ⟨false, .error (.parseError "truncated file"), some "dcmdjpeg",
        true, .ok (exDcm 7)⟩ .isTrue = .error (.parseError "truncated file") ∧
    open_reader ⟨false, .error (.compressedDicom "RLE compressed"),
        some "dcmdjpeg", true, .ok (exDcm 7)⟩ .isTrue =
      .error (.compressedDicom "RLE compressed") ∧
    open_reader ⟨false, .error (.compressedDicom "not JPEG data"),
        some "dcmdjpeg", true,
        .error (.compressedDicom "still JPEG data")⟩ .isTrue =
      .error (.compressedDicom "still JPEG data") := by
  have h1 := (recovery_only_jpeg_one_shot
    ⟨false, .error (.parseError "truncated file"), some "dcmdjpeg", true,
      .ok (exDcm 7)⟩ .isTrue rfl).1 (.parseError "truncated file") rfl
    (fun m h => by cases h)
  have h2 := (recovery_only_jpeg_one_shot
    ⟨false, .error (.compressedDicom "RLE compressed"), some "dcmdjpeg", true,
      .ok (exDcm 7)⟩ .isTrue rfl).2.1 "RLE compressed" rfl (by decide)
  have h3 := (recovery_only_jpeg_one_shot
    ⟨false, .error (.compressedDicom "not JPEG data"), some "dcmdjpeg", true,
      .error (.compressedDicom "still JPEG data")⟩ .isTrue rfl).2.2
    "not JPEG data" "still JPEG data" "dcmdjpeg" rfl (by decide) rfl rfl rfl
  exact ⟨h1.1, h2.1, h3⟩

/-- Lemma: once the catalog is cached, any sequence of queries keeps the cache
and never re-runs discovery. -/
theorem runOps_cached (env : Env) (ops : List ReaderOp) :
    ∀ s c, s.series = some c →
      (runOps env ops s).series = some c ∧
      (runOps env ops s).discoveries = s.discoveries := by
  induction ops with
  | nil => intro s c h; exact ⟨h, rfl⟩
  | cons op ops ih =>
    intro s c h
    have hstep := runOp_step env s op
    rcases hstep with ⟨e1, e2⟩ | ⟨e0, _, _⟩
    · have hrec := ih (runOp env s op) c (by rw [e1, h])
      refine ⟨hrec.1, ?_⟩
      show (runOps env ops (runOp env s op)).discoveries = s.discoveries
      rw [hrec.2, e2]
    · rw [h] at e0; cases e0

/-- Lemma: from an unresolved catalog, any sequence of queries triggers at
most one discovery. -/
theorem runOps_discoveries_le (env : Env) (ops : List ReaderOp) :
    ∀ s, s.series = none →
      (runOps env ops s).discoveries ≤ s.discoveries + 1 := by
  induction ops with
  | nil => intro s h; exact Nat.le_succ _
  | cons op ops ih =>
    intro s h
    have hstep := runOp_step env s op
    show (runOps env ops (runOp env s op)).discoveries ≤ s.discoveries + 1
    rcases hstep with ⟨e1, e2⟩ | ⟨e0, e1, e2⟩
    · have hrec := ih (runOp env s op) (by rw [e1, h])
      omega
    · have hrec := runOps_cached env ops (runOp env s op) _ e1
      omega

/-- C8: calling `length(mode)` twice, or `data(i)` twice with the same index,
returns identical results and identical states; over any sequence of length,
data and metadata queries a fresh reader runs series discovery at most once;
once the catalog is cached no query re-runs discovery or changes the cache
(so later accesses are immune to directory changes); and a cached catalog
access returns the cached value without touching the state. -/
theorem query_idempotent_discovery_once (env : Env) (mode : Char) (i : Nat)
    (s : ReaderState) :
    get_length env mode (get_length env mode s).2 = get_length env mode s ∧
    get_data env mode i (get_data env mode i s).2 = get_data env mode i s ∧
    (∀ ops : List ReaderOp, s.series = none →
      (runOps env ops s).discoveries ≤ s.discoveries + 1) ∧
    (∀ c, s.series = some c → ∀ ops : List ReaderOp,
      (runOps env ops s).series = some c ∧
      (runOps env ops s).discoveries = s.discoveries) ∧
    (∀ c, s.series = some c → series env s = (c, s)) :=
  ⟨get_length_idem env mode s,
   get_data_idem env mode i s,
   fun ops h => runOps_discoveries_le env ops s h,
   fun c h ops => runOps_cached env ops s c h,
   fun _ h => series_cached env h⟩

/-- C8 witness: the idempotence theorem applied to the concrete directory
state (fresh catalog) and to a concrete state with a cached catalog, over a
concrete mixed query sequence. -/
theorem query_idempotent_discovery_once_witness :
    get_length exEnv 'I' (get_length exEnv 'I' exDirState).2 =
      get_length exEnv 'I' exDirState ∧
    get_data exEnv 'v' 1 (get_data exEnv 'v' 1 exDirState).2 =
      get_data exEnv 'v' 1 exDirState ∧
    (runOps exEnv [.lengthOp 'I', .dataOp 'V' 0, .metaOp 'v' (some 1)]
      exDirState).discoveries ≤ 1 ∧
    (runOps exEnv [.lengthOp 'I', .dataOp 'V' 0, .metaOp 'v' (some 1)]
        exCachedState).series = some [exSeries0, exSeries1] ∧
    (runOps exEnv [.lengthOp 'I', .dataOp 'V' 0, .metaOp 'v' (some 1)]
        exCachedState).discoveries = 1 ∧
    series exEnv exCachedState = ([exSeries0, exSeries1], exCachedState) := by
  have h1 := query_idempotent_discovery_once exEnv 'I' 1 exDirState
  have h2 := query_idempotent_discovery_once exEnv 'v' 1 exDirState
  have h3 := query_idempotent_discovery_once exEnv 'I' 1 exCachedState
  have hc := h3.2.2.2.1 [exSeries0, exSeries1] rfl
    [.lengthOp 'I', .dataOp 'V' 0, .metaOp 'v' (some 1)]
  exact ⟨h1.1, h2.2.1,
    h1.2.2.1 [.lengthOp 'I', .dataOp 'V' 0, .metaOp 'v' (some 1)] rfl,
    hc.1, hc.2, h3.2.2.2.2 [exSeries0, exSeries1] rfl⟩

/-- C9: exactly the three progress configurations (a reporter object, `True`,
and `False`/`None`) are accepted; any other progress value makes open raise a
`ValueError` — a configuration error — whenever opening itself gets that far
(directory source, or file source whose parse succeeds); and for every mode
symbol outside the recognized four, `length` raises a `RuntimeError` and
`data` a `ValueError` — both configuration errors — and neither returns a
value. -/
theorem configuration_errors (oenv : OpenEnv) (env : Env) (mode : Char)
    (i : Nat) (s : ReaderState) (b : PixelBuf) (hb : s.data = some b)
    (hmode : mode ≠ 'i' ∧ mode ≠ 'I' ∧ mode ≠ 'v' ∧ mode ≠ 'V') :
    (∀ p : Progress, (∃ pi, set_progress p = .ok pi) ↔ p ≠ .otherValue) ∧
    ((oenv.isDir = true ∨ (∃ dcm, parse_with_recovery oenv = .ok dcm)) →
      open_reader oenv .otherValue =
        .error (.valueError "Invalid value for progress.") ∧
      Err.isConfig (.valueError "Invalid value for progress.") = true) ∧
    ((get_length env mode s).1 =
        .error (.runtimeError "DICOM plugin should know what to expect.") ∧
      Err.isConfig
        (.runtimeError "DICOM plugin should know what to expect.") = true) ∧
    ((get_data env mode i s).1 =
        .error (.valueError "DICOM plugin should know what to expect.") ∧
      Err.isConfig
        (.valueError "DICOM plugin should know what to expect.") = true) := by
  obtain ⟨hm1, hm2, hm3, hm4⟩ := hmode
  have hlf := load_first_some env hb
  refine ⟨?_, ?_, ?_, ?_⟩
  · intro p
    cases p <;> simp [set_progress]
  · intro h
    cases hdir : oenv.isDir with
    | true => exact ⟨by simp [open_reader, hdir, set_progress], rfl⟩
    | false =>
      rcases h with h | ⟨dcm, hdcm⟩
      · rw [hdir] at h; cases h
      · exact ⟨by simp [open_reader, hdir, hdcm, set_progress], rfl⟩
  · exact ⟨by simp [get_length, hlf, hm1, hm2, hm3, hm4], rfl⟩
  · exact ⟨by simp [get_data, hlf, hm1, hm2, hm3, hm4], rfl⟩

/-- C9 witness: the configuration-error theorem applied at the mode symbol
`?`, a concrete loaded state, and a directory open environment. -/
theorem configuration_errors_witness :
    (∃ pi, set_progress .isFalse = .ok pi) ∧
    open_reader ⟨true, .error (.parseError "x"), none, false,
        .error (.parseError "x")⟩ .otherValue =
      .error (.valueError "Invalid value for progress.") ∧
    (get_length exEnv '?' exImgState).1 =
      .error (.runtimeError "DICOM plugin should know what to expect.") ∧
    (get_data exEnv '?' 0 exImgState).1 =
      .error (.valueError "DICOM plugin should know what to expect.") := by
  have h := configuration_errors
    ⟨true, .error (.parseError "x"), none, false, .error (.parseError "x")⟩
    exEnv '?' 0 exImgState (.img [[3]]) rfl
    ⟨by decide, by decide, by decide, by decide⟩
  exact ⟨(h.1 Progress.isFalse).mpr (by decide), (h.2.1 (Or.inl rfl)).1,
    h.2.2.1.1, h.2.2.2.1⟩

/-- C10: from a freshly opened directory source (no loaded data, no resolved
catalog), the first query of any kind — length, data or metadata, for every
mode and index — promotes the first item of the first series into the loaded
state before mode dispatch: the post-state always carries that item's buffer
and metadata and the cached catalog, so length and data/metadata queries
observe the same loaded state whichever runs first. -/
theorem promotion_before_dispatch (env : Env) (s : ReaderState)
    (d0 : SimpleDicomReader) (ser0 : DicomSeries) (rest : List DicomSeries)
    (tl : List SimpleDicomReader)
    (hdata : s.data = none) (hser : s.series = none)
    (hcat : env.catalogAt s.discoveries = ser0 :: rest)
    (hitems : ser0.items = d0 :: tl) :
    (∀ op : ReaderOp,
      (runOp env s op).data = some d0.array ∧
      (runOp env s op).info = d0.info ∧
      (runOp env s op).series = some (ser0 :: rest)) ∧
    (∀ op1 op2 : ReaderOp,
      (runOp env s op1).data = (runOp env s op2).data ∧
      (runOp env s op1).info = (runOp env s op2).info) := by
  have hlf : load_first env s =
      (.ok d0.array,
        ⟨d0.info, some d0.array, some (ser0 :: rest), s.progressIndicator,
          s.discoveries + 1⟩) := by
    simp [load_first, hdata, series, hser, hcat, hitems]
  have hLen : ∀ mode, (get_length env mode s).2 =
      ⟨d0.info, some d0.array, some (ser0 :: rest), s.progressIndicator,
        s.discoveries + 1⟩ := by
    intro mode
    simp only [get_length, hlf]
    split <;> (try split) <;> (try split) <;> (try split) <;> rfl
  have hData : ∀ mode index, (get_data env mode index s).2 =
      ⟨d0.info, some d0.array, some (ser0 :: rest), s.progressIndicator,
        s.discoveries + 1⟩ := by
    intro mode index
    simp only [get_data, hlf]
    split <;> (try split) <;> (try split) <;> (try split) <;>
      first
      | rfl
      | (split <;> rfl)
  have hMeta : ∀ mode index, (get_meta_data env mode index s).2 =
      ⟨d0.info, some d0.array, some (ser0 :: rest), s.progressIndicator,
        s.discoveries + 1⟩ := by
    intro mode index
    simp only [get_meta_data, hlf]
    cases index with
    | none => rfl
    | some j =>
      simp only
      split <;> (try split) <;> (try split) <;> (try split) <;>
        first
        | rfl
        | (split <;> rfl)
  have hpost : ∀ op : ReaderOp, runOp env s op =
      ⟨d0.info, some d0.array, some (ser0 :: rest), s.progressIndicator,
        s.discoveries + 1⟩ := by
    intro op
    cases op with
    | lengthOp mode => exact hLen mode
    | dataOp mode index => exact hData mode index
    | metaOp mode index => exact hMeta mode index
  constructor
  · intro op
    rw [hpost op]
    exact ⟨rfl, rfl, rfl⟩
  · intro op1 op2
    rw [hpost op1, hpost op2]
    exact ⟨rfl, rfl⟩

/-- C10 witness: the promotion theorem applied to the concrete directory
state and catalog, comparing a length query with a data query and a metadata
query as the first access. -/
theorem promotion_before_dispatch_witness :
    ((runOp exEnv exDirState (.lengthOp 'v')).data = some ((exDcm 0).array) ∧
     (runOp exEnv exDirState (.lengthOp 'v')).info = (exDcm 0).info ∧
     (runOp exEnv exDirState (.lengthOp 'v')).series =
       some [exSeries0, exSeries1]) ∧
    ((runOp exEnv exDirState (.lengthOp 'I')).data =
       (runOp exEnv exDirState (.dataOp 'V' 1)).data ∧
     (runOp exEnv exDirState (.lengthOp 'I')).info =
       (runOp exEnv exDirState (.dataOp 'V' 1)).info) ∧
    ((runOp exEnv exDirState (.metaOp 'i' none)).data =
       (runOp exEnv exDirState (.dataOp 'I' 4)).data) := by
  have h := promotion_before_dispatch exEnv exDirState (exDcm 0) exSeries0
    [exSeries1] [exDcm 1] rfl rfl rfl rfl
  exact ⟨h.1 (.lengthOp 'v'), h.2 (.lengthOp 'I') (.dataOp 'V' 1),
    (h.2 (.metaOp 'i' none) (.dataOp 'I' 4)).1⟩

end Dicom
